import Mathlib

/-!
Verification of the video composition core of `video_composer.py`
(`VideoComposer`): the timeline builder, the letterbox layout engine,
the anchor-position table, and the control/error paths of the two
rendering backends (moviepy and OpenCV).

Float arithmetic of the source is modelled exactly over `ℚ`;
Python `int()` on nonnegative values is `Int.floor`, and Python `//`
(floor division) is `Int.fdiv`.
-/

namespace VideoComposer

/-! ### Timeline builder (`_create_image_clips`, lines 192-238)

The code computes `duration_per_image = total_duration / num_images`
and gives clip `idx` start `idx * duration_per_image` and duration
`duration_per_image`. -/

/-- `duration_per_image = total_duration / num_images` from `_create_image_clips`. -/
def durationPerImage (totalDuration : ℚ) (numImages : ℕ) : ℚ :=
  totalDuration / numImages

/-- Start of slot `idx`: `idx * duration_per_image`. -/
def slotStart (totalDuration : ℚ) (numImages idx : ℕ) : ℚ :=
  idx * durationPerImage totalDuration numImages

/-- End of slot `idx`: its start plus its duration. -/
def slotEnd (totalDuration : ℚ) (numImages idx : ℕ) : ℚ :=
  slotStart totalDuration numImages idx + durationPerImage totalDuration numImages

/-- The timeline over `numImages` images: the (start, end) windows the code
assigns via `with_start`/`with_duration`. -/
def buildTimeline (totalDuration : ℚ) (numImages : ℕ) : List (ℚ × ℚ) :=
  (List.range numImages).map fun idx =>
    (slotStart totalDuration numImages idx, slotEnd totalDuration numImages idx)

/-! ### Layout engine (`_resize_to_fit`, lines 240-275) -/

/-- A canvas-relative placement rectangle. -/
structure LayoutRect where
  x : ℤ
  y : ℤ
  width : ℤ
  height : ℤ
deriving DecidableEq, Repr

/-- `scale = min(target_width / original_w, target_height / original_h)`. -/
def fitScale (originalW originalH targetW targetH : ℕ) : ℚ :=
  min ((targetW : ℚ) / originalW) ((targetH : ℚ) / originalH)

/-- The letterbox placement computed by `_resize_to_fit`:
`new_w = int(original_w * scale)`, `new_h = int(original_h * scale)`,
`x_offset = (target_width - new_w) // 2`, `y_offset = (target_height - new_h) // 2`. -/
def resizeToFit (originalW originalH targetW targetH : ℕ) : LayoutRect :=
  let scale := fitScale originalW originalH targetW targetH
  let newW := Int.floor ((originalW : ℚ) * scale)
  let newH := Int.floor ((originalH : ℚ) * scale)
  let xOffset := Int.fdiv ((targetW : ℤ) - newW) 2
  let yOffset := Int.fdiv ((targetH : ℤ) - newH) 2
  ⟨xOffset, yOffset, newW, newH⟩

/-! ### Anchor positions (`_get_position`, lines 300-337) -/

/-- The position table of `_get_position`; `positions.get(position, positions["bottom_right"])`
sends any unrecognized anchor to the `bottom_right` entry. -/
def getPosition (position : String) (canvasWidth canvasHeight elementWidth elementHeight : ℤ)
    (margin : ℤ) : ℤ × ℤ :=
  match position with
  | "bottom_right" =>
      (canvasWidth - elementWidth - margin, canvasHeight - elementHeight - margin)
  | "bottom_left" =>
      (margin, canvasHeight - elementHeight - margin)
  | "top_right" =>
      (canvasWidth - elementWidth - margin, margin)
  | "top_left" =>
      (margin, margin)
  | "center" =>
      (Int.fdiv (canvasWidth - elementWidth) 2, Int.fdiv (canvasHeight - elementHeight) 2)
  | "bottom_center" =>
      (Int.fdiv (canvasWidth - elementWidth) 2, canvasHeight - elementHeight - margin)
  | _ =>
      (canvasWidth - elementWidth - margin, canvasHeight - elementHeight - margin)

/-! ### Per-image success/failure and the clip list

`_create_image_clips` wraps each image in `try/except`: a failing image is
logged and skipped (no clip appended); a succeeding image `idx` yields a
clip with start `idx * duration_per_image` and duration `duration_per_image`. -/

/-- Outcome of processing one image entry: it either processes cleanly or
raises somewhere inside the per-image `try` block. -/
inductive ImgSpec
  | ok
  | bad
deriving DecidableEq, Repr

/-- One background clip produced by `_create_image_clips`. -/
structure Clip where
  imageIdx : ℕ
  start : ℚ
  duration : ℚ
deriving DecidableEq, Repr

/-- The clip list built by `_create_image_clips`: failing images are skipped,
every other image keeps its index-determined start and the common duration. -/
def createImageClips (images : List ImgSpec) (totalDuration : ℚ) : List Clip :=
  let per := durationPerImage totalDuration images.length
  images.enum.filterMap fun p =>
    match p.2 with
    | .ok => some ⟨p.1, p.1 * per, per⟩
    | .bad => none

/-! ### Background composition (`_create_with_moviepy` lines 133-155 and
`_compose_images_with_transitions`) -/

/-- What a background clip displays: a processed image, or a solid
`ColorClip` with the given RGB color. -/
inductive BgFrame
  | image (idx : ℕ)
  | solid (color : ℕ × ℕ × ℕ)
deriving DecidableEq, Repr

/-- A clip of the background layer with its content and time window. -/
structure BgClip where
  content : BgFrame
  start : ℚ
  duration : ℚ
deriving DecidableEq, Repr

/-- Lines 133-144: with a nonempty image list, the clips from
`_create_image_clips`; with an empty list, a single full-duration
`ColorClip(color=(240, 240, 245))`. -/
def selectImageClips (images : List ImgSpec) (totalDuration : ℚ) : List BgClip :=
  if images.isEmpty then
    [⟨.solid (240, 240, 245), 0, totalDuration⟩]
  else
    (createImageClips images totalDuration).map fun c => ⟨.image c.imageIdx, c.start, c.duration⟩

/-- `_compose_images_with_transitions`: empty clip list becomes a full-duration
color clip; a single clip has its duration set to the total (keeping its
start); otherwise the clips are composited as given. -/
def composeWithTransitions (clips : List BgClip) (totalDuration : ℚ) : List BgClip :=
  match clips with
  | [] => [⟨.solid (240, 240, 245), 0, totalDuration⟩]
  | [c] => [⟨c.content, c.start, totalDuration⟩]
  | cs => cs

/-- Whether a clip is on screen at time `t`. -/
def clipActive (c : BgClip) (t : ℚ) : Bool :=
  decide (c.start ≤ t) && decide (t < c.start + c.duration)

/-- What `CompositeVideoClip` shows at time `t`: the topmost (last-listed)
active clip, or nothing when no clip covers `t`. -/
def renderAt (clips : List BgClip) (t : ℚ) : Option BgFrame :=
  (clips.reverse.find? (clipActive · t)).map (·.content)

/-- The background layer content of the moviepy path at time `t`. -/
def backgroundAt (images : List ImgSpec) (totalDuration t : ℚ) : Option BgFrame :=
  renderAt (composeWithTransitions (selectImageClips images totalDuration) totalDuration) t

/-- End time of a background clip. -/
def clipEnd (c : BgClip) : ℚ := c.start + c.duration

/-- Duration of a `CompositeVideoClip`: the maximum end time of its layers. -/
def compositeDuration (clips : List BgClip) : ℚ :=
  (clips.map clipEnd).foldr max 0

/-- Duration of the final composite: background layers together with the
avatar clip, which spans the full avatar duration. -/
def finalDuration (images : List ImgSpec) (totalDuration : ℚ) : ℚ :=
  max (compositeDuration (composeWithTransitions (selectImageClips images totalDuration)
    totalDuration)) totalDuration

/-! ### The moviepy backend as an event trace (`_create_with_moviepy`) -/

/-- Observable resource/output events of one `_create_with_moviepy` call.
`closeImage` and `closeAudio` exist in the vocabulary but the code never
emits them. -/
inductive Event
  | openAvatar
  | openImage (idx : ℕ)
  | openAudio
  | writeOutput
  | closeAvatar
  | closeFinal
  | closeImage (idx : ℕ)
  | closeAudio
deriving DecidableEq, Repr

/-- Environment of one moviepy composition call: which fallible external
steps succeed. -/
structure MoviepyEnv where
  avatarOpens : Bool
  audioExists : Bool
  writeSucceeds : Bool
deriving DecidableEq, Repr

/-- Open events for the images that process successfully. -/
def imageOpenEvents (images : List ImgSpec) : List Event :=
  images.enum.filterMap fun p =>
    match p.2 with
    | .ok => some (Event.openImage p.1)
    | .bad => none

/-- `_create_with_moviepy` as result plus event trace. The whole body is one
`try/except` returning `None` on any exception; `close()` is called on
`avatar_clip` and `final_clip` only after `write_videofile` succeeds. -/
def createWithMoviepy (env : MoviepyEnv) (images : List ImgSpec) (outputPath : String) :
    Option String × List Event :=
  if env.avatarOpens then
    let pre := Event.openAvatar :: imageOpenEvents images ++
      (if env.audioExists then [Event.openAudio] else [])
    if env.writeSucceeds then
      (some outputPath, pre ++ [Event.writeOutput, Event.closeAvatar, Event.closeFinal])
    else
      (none, pre)
  else
    (none, [])

/-! ### The OpenCV backend (`_create_with_opencv`, lines 339-408) -/

/-- Environment of one OpenCV composition call. `cv2.VideoCapture` does not
raise on a bad file: it reports a frame count and yields however many frames
`read()` can decode. -/
structure OpencvEnv where
  totalFrames : ℕ
  readableFrames : ℕ
deriving DecidableEq, Repr

/-- Number of images `_prepare_images_opencv` returns: failing images are
caught and skipped. -/
def preparedCount (images : List ImgSpec) : ℕ :=
  (images.filter fun i => match i with | .ok => true | .bad => false).length

/-- `frames_per_image = total_frames // max(len(prepared_images), 1)`. -/
def framesPerImage (totalFrames prepared : ℕ) : ℕ :=
  totalFrames / max prepared 1

/-- The render loop: reads frames while available; with a nonempty prepared
list the background index computation divides by `frames_per_image`, which
raises `ZeroDivisionError` when that is zero. Returns (raised?, frames
written to the encoder). -/
def opencvLoop (prepared fpi : ℕ) : ℕ → ℕ → Bool × ℕ
  | 0, written => (false, written)
  | r + 1, written =>
      if prepared ≠ 0 ∧ fpi = 0 then (true, written)
      else opencvLoop prepared fpi r (written + 1)

/-- `_create_with_opencv` as result plus number of frames written: the body
is one `try/except` returning `None` on any exception. -/
def createWithOpencv (env : OpencvEnv) (images : List ImgSpec) (outputPath : String) :
    Option String × ℕ :=
  let prepared := preparedCount images
  let fpi := framesPerImage env.totalFrames prepared
  let res := opencvLoop prepared fpi env.readableFrames 0
  if res.1 then (none, res.2) else (some outputPath, res.2)

/-! ### Public entry point (`create_pip_video`, lines 60-89) -/

/-- Which rendering backends imported successfully at module load. -/
structure Backends where
  moviepyAvailable : Bool
  cv2Available : Bool
deriving DecidableEq, Repr

/-- `create_pip_video`: moviepy if available, else OpenCV, else `None`. -/
def create_pip_video (avail : Backends) (envM : MoviepyEnv) (envC : OpencvEnv)
    (images : List ImgSpec) (outputPath : String) : Option String :=
  if avail.moviepyAvailable then
    (createWithMoviepy envM images outputPath).1
  else if avail.cv2Available then
    (createWithOpencv envC images outputPath).1
  else
    none

/-! ### Helper lemmas -/

/-- Python `// 2` on a nonnegative integer is nonnegative. -/
theorem fdiv_two_nonneg {a : ℤ} (h : 0 ≤ a) : 0 ≤ Int.fdiv a 2 := by
  rw [Int.fdiv_eq_ediv a (by norm_num)]
  exact Int.ediv_nonneg h (by norm_num)

/-- Python `// 2` on a nonnegative integer does not exceed it. -/
theorem fdiv_two_le_self {a : ℤ} (h : 0 ≤ a) : Int.fdiv a 2 ≤ a := by
  rw [Int.fdiv_eq_ediv a (by norm_num)]
  exact Int.ediv_le_self 2 h

/-! ### Claim theorems -/

/-- C1: with `imageCount ≥ 1` and `totalDuration > 0`, slot `i` spans
`[i * (totalDuration/imageCount), (i+1) * (totalDuration/imageCount))`,
the final slot ends exactly at `totalDuration`, the slots are contiguous and
non-overlapping, their durations sum to `totalDuration`, and duration `12`
with `3` images yields slots `[0,4), [4,8), [8,12)`. -/
theorem C1_timeline_slots (numImages : ℕ) (totalDuration : ℚ)
    (hn : 1 ≤ numImages) (hT : 0 < totalDuration) :
    (∀ idx : ℕ,
        slotStart totalDuration numImages idx = idx * (totalDuration / numImages)
      ∧ slotEnd totalDuration numImages idx = slotStart totalDuration numImages (idx + 1))
  ∧ slotEnd totalDuration numImages (numImages - 1) = totalDuration
  ∧ (Finset.range numImages).sum
      (fun idx => slotEnd totalDuration numImages idx - slotStart totalDuration numImages idx)
      = totalDuration
  ∧ (∀ i j : ℕ, i < j →
      slotEnd totalDuration numImages i ≤ slotStart totalDuration numImages j)
  ∧ buildTimeline 12 3 = [(0, 4), (4, 8), (8, 12)] := by
  have hn0 : (numImages : ℚ) ≠ 0 := Nat.cast_ne_zero.mpr (by omega)
  refine ⟨fun idx => ⟨rfl, ?_⟩, ?_, ?_, ?_, ?_⟩
  · simp only [slotStart, slotEnd, durationPerImage]
    push_cast
    ring
  · simp only [slotStart, slotEnd, durationPerImage]
    have hc : ((numImages - 1 : ℕ) : ℚ) = (numImages : ℚ) - 1 := by
      push_cast [hn]
      ring
    rw [hc]
    field_simp
    ring
  · simp only [slotStart, slotEnd, durationPerImage, add_sub_cancel_left]
    rw [Finset.sum_const, Finset.card_range, nsmul_eq_mul]
    field_simp
  · intro i j hij
    have hper : 0 ≤ totalDuration / numImages := by positivity
    simp only [slotStart, slotEnd, durationPerImage]
    have hcast : ((i : ℚ) + 1) ≤ (j : ℚ) := by
      exact_mod_cast Nat.succ_le_of_lt hij
    nlinarith
  · simp [buildTimeline, slotStart, slotEnd, durationPerImage, List.range_succ]
    norm_num

/-- C1 witness: the theorem instantiated at 3 images of total duration 12. -/
theorem C1_timeline_slots_witness :
    (1 ≤ 3 ∧ (0 : ℚ) < 12)
  ∧ slotEnd 12 3 2 = 12 := by
  refine ⟨⟨by norm_num, by norm_num⟩, ?_⟩
  exact (C1_timeline_slots 3 12 (by norm_num) (by norm_num)).2.1

/-- C2: for positive source and target dimensions, `_resize_to_fit` scales by
`min(targetW/sourceW, targetH/sourceH)`, floors the scaled dimensions, centers
with integer division, and the resulting rect lies inside the canvas; the
800x600 source on a 1280x720 canvas gives rect (160, 0, 960, 720). -/
theorem C2_letterbox_fits :
    (∀ ow oh tw th : ℕ, 0 < ow → 0 < oh → 0 < tw → 0 < th →
        0 ≤ (resizeToFit ow oh tw th).x
      ∧ 0 ≤ (resizeToFit ow oh tw th).y
      ∧ 0 ≤ (resizeToFit ow oh tw th).width
      ∧ 0 ≤ (resizeToFit ow oh tw th).height
      ∧ (resizeToFit ow oh tw th).x + (resizeToFit ow oh tw th).width ≤ tw
      ∧ (resizeToFit ow oh tw th).y + (resizeToFit ow oh tw th).height ≤ th)
  ∧ resizeToFit 800 600 1280 720 = ⟨160, 0, 960, 720⟩ := by
  constructor
  · intro ow oh tw th how hoh htw hth
    have how0 : (0 : ℚ) < ow := by exact_mod_cast how
    have hoh0 : (0 : ℚ) < oh := by exact_mod_cast hoh
    have htw0 : (0 : ℚ) < tw := by exact_mod_cast htw
    have hth0 : (0 : ℚ) < th := by exact_mod_cast hth
    have hs0 : 0 ≤ fitScale ow oh tw th := by
      simp only [fitScale, le_min_iff]
      constructor <;> positivity
    have hwle : (ow : ℚ) * fitScale ow oh tw th ≤ tw := by
      have h1 : fitScale ow oh tw th ≤ (tw : ℚ) / ow := min_le_left _ _
      calc (ow : ℚ) * fitScale ow oh tw th ≤ (ow : ℚ) * ((tw : ℚ) / ow) := by
            exact mul_le_mul_of_nonneg_left h1 (le_of_lt how0)
        _ = tw := by field_simp
    have hhle : (oh : ℚ) * fitScale ow oh tw th ≤ th := by
      have h1 : fitScale ow oh tw th ≤ (th : ℚ) / oh := min_le_right _ _
      calc (oh : ℚ) * fitScale ow oh tw th ≤ (oh : ℚ) * ((th : ℚ) / oh) := by
            exact mul_le_mul_of_nonneg_left h1 (le_of_lt hoh0)
        _ = th := by field_simp
    have hw_nonneg : 0 ≤ Int.floor ((ow : ℚ) * fitScale ow oh tw th) := by
      apply Int.floor_nonneg.mpr
      positivity
    have hh_nonneg : 0 ≤ Int.floor ((oh : ℚ) * fitScale ow oh tw th) := by
      apply Int.floor_nonneg.mpr
      positivity
    have hw_le : Int.floor ((ow : ℚ) * fitScale ow oh tw th) ≤ (tw : ℤ) := by
      have := Int.floor_le_floor hwle
      simpa using this
    have hh_le : Int.floor ((oh : ℚ) * fitScale ow oh tw th) ≤ (th : ℤ) := by
      have := Int.floor_le_floor hhle
      simpa using this
    simp only [resizeToFit]
    refine ⟨fdiv_two_nonneg (by omega), fdiv_two_nonneg (by omega), hw_nonneg, hh_nonneg, ?_, ?_⟩
    · have := fdiv_two_le_self (a := (tw : ℤ) - Int.floor ((ow : ℚ) * fitScale ow oh tw th))
        (by omega)
      omega
    · have := fdiv_two_le_self (a := (th : ℤ) - Int.floor ((oh : ℚ) * fitScale ow oh tw th))
        (by omega)
      omega
  · simp [resizeToFit, fitScale]
    norm_num
    decide

/-- C2 witness: the bound applied to the 800x600 source and 1280x720 canvas. -/
theorem C2_letterbox_fits_witness :
    (0 < 800 ∧ 0 < 600 ∧ 0 < 1280 ∧ 0 < 720)
  ∧ (resizeToFit 800 600 1280 720).x + (resizeToFit 800 600 1280 720).width ≤ 1280 := by
  refine ⟨⟨by norm_num, by norm_num, by norm_num, by norm_num⟩, ?_⟩
  exact (C2_letterbox_fits.1 800 600 1280 720 (by norm_num) (by norm_num) (by norm_num)
    (by norm_num)).2.2.2.2.1

/-- C3 counterexample: for anchor `bottom_right` on a 100x100 canvas with a
100x100 element (so `elemW ≤ canvasW` and `elemH ≤ canvasH`) and the default
margin 20, `_get_position` returns (-20, -20), which lies outside the canvas:
the claim's containment bound fails. -/
theorem C3_counterexample :
    (100 : ℤ) ≤ 100 ∧ (100 : ℤ) ≤ 100
  ∧ getPosition "bottom_right" 100 100 100 100 20 = (-20, -20)
  ∧ ¬ 0 ≤ (getPosition "bottom_right" 100 100 100 100 20).1 := by
  decide

/-- C3 amended: `_get_position` is a pure function (determinism is immediate),
and for every anchor name — the six recognized ones and any other — the
returned rect lies fully inside the canvas whenever the element plus the
margin fits on each axis: `elemW + margin ≤ canvasW` and
`elemH + margin ≤ canvasH` (with nonnegative element sizes and margin). -/
theorem C3_amended_containment (position : String)
    (canvasW canvasH elemW elemH margin : ℤ)
    (hw : 0 ≤ elemW) (hh : 0 ≤ elemH) (hm : 0 ≤ margin)
    (hW : elemW + margin ≤ canvasW) (hH : elemH + margin ≤ canvasH) :
    0 ≤ (getPosition position canvasW canvasH elemW elemH margin).1
  ∧ (getPosition position canvasW canvasH elemW elemH margin).1 + elemW ≤ canvasW
  ∧ 0 ≤ (getPosition position canvasW canvasH elemW elemH margin).2
  ∧ (getPosition position canvasW canvasH elemW elemH margin).2 + elemH ≤ canvasH := by
  have hx1 := fdiv_two_nonneg (a := canvasW - elemW) (by omega)
  have hx2 := fdiv_two_le_self (a := canvasW - elemW) (by omega)
  have hy1 := fdiv_two_nonneg (a := canvasH - elemH) (by omega)
  have hy2 := fdiv_two_le_self (a := canvasH - elemH) (by omega)
  unfold getPosition
  split <;> refine ⟨?_, ?_, ?_, ?_⟩ <;> simp <;> linarith

/-- C3 amended witness: a 320x240 element anchored `bottom_right` on the
default 1280x720 canvas with margin 20 stays inside the canvas. -/
theorem C3_amended_containment_witness :
    ((0 : ℤ) ≤ 320 ∧ (0 : ℤ) ≤ 240 ∧ (0 : ℤ) ≤ 20
      ∧ (320 : ℤ) + 20 ≤ 1280 ∧ (240 : ℤ) + 20 ≤ 720)
  ∧ 0 ≤ (getPosition "bottom_right" 1280 720 320 240 20).1 := by
  refine ⟨⟨by norm_num, by norm_num, by norm_num, by norm_num, by norm_num⟩, ?_⟩
  exact (C3_amended_containment "bottom_right" 1280 720 320 240 20 (by norm_num) (by norm_num)
    (by norm_num) (by norm_num) (by norm_num)).1

/-- C7: any anchor name outside the six recognized ones silently gets the
`bottom_right` coordinates
`(canvasW - elemW - margin, canvasH - elemH - margin)`; no error is raised. -/
theorem C7_unknown_anchor_defaults (position : String)
    (canvasW canvasH elemW elemH margin : ℤ)
    (h1 : position ≠ "bottom_right") (h2 : position ≠ "bottom_left")
    (h3 : position ≠ "top_right") (h4 : position ≠ "top_left")
    (h5 : position ≠ "center") (h6 : position ≠ "bottom_center") :
    getPosition position canvasW canvasH elemW elemH margin
      = (canvasW - elemW - margin, canvasH - elemH - margin)
  ∧ getPosition position canvasW canvasH elemW elemH margin
      = getPosition "bottom_right" canvasW canvasH elemW elemH margin := by
  unfold getPosition
  split <;> simp_all

/-- C7 witness: the unrecognized anchor name "banana" maps to the
`bottom_right` coordinates on the default canvas. -/
theorem C7_unknown_anchor_defaults_witness :
    ("banana" ≠ "bottom_right"
      ∧ "banana" ≠ "bottom_left" ∧ "banana" ≠ "top_right" ∧ "banana" ≠ "top_left"
      ∧ "banana" ≠ "center" ∧ "banana" ≠ "bottom_center")
  ∧ getPosition "banana" 1280 720 320 240 20 = (940, 460) := by
  refine ⟨⟨by decide, by decide, by decide, by decide, by decide, by decide⟩, ?_⟩
  have h := (C7_unknown_anchor_defaults "banana" 1280 720 320 240 20 (by decide) (by decide)
    (by decide) (by decide) (by decide) (by decide)).1
  rw [h]
  norm_num

/-- C4 counterexample: with three images of which the middle one fails, the
composition at time 6 — inside the failed image's slot [4, 8) — shows no
background clip at all; in particular the slot is not filled with the solid
`(240, 240, 245)` fallback frame the claim requires. -/
theorem C4_counterexample :
    backgroundAt [.ok, .bad, .ok] 12 6 = none
  ∧ backgroundAt [.ok, .bad, .ok] 12 6 ≠ some (BgFrame.solid (240, 240, 245)) := by
  constructor
  · simp [backgroundAt, renderAt, composeWithTransitions, selectImageClips,
      createImageClips, durationPerImage, List.enum, clipActive, List.find?]
    norm_num
  · intro h
    have h0 : backgroundAt [.ok, .bad, .ok] 12 6 = none := by
      simp [backgroundAt, renderAt, composeWithTransitions, selectImageClips,
        createImageClips, durationPerImage, List.enum, clipActive, List.find?]
      norm_num
    rw [h0] at h
    exact Option.noConfusion h

/-- Index-and-entry membership in `List.enum`. -/
theorem mem_enum_iff {l : List ImgSpec} {i : ℕ} {x : ImgSpec} :
    (i, x) ∈ l.enum ↔ l.get? i = some x := by
  simp [List.mk_mem_enum_iff_getElem?]

/-- Membership in the clip list built by `_create_image_clips`: exactly the
successfully processed images appear, each at its index-determined window. -/
theorem mem_createImageClips {images : List ImgSpec} {T : ℚ} {c : Clip} :
    c ∈ createImageClips images T ↔
      images.get? c.imageIdx = some .ok
      ∧ c.start = c.imageIdx * durationPerImage T images.length
      ∧ c.duration = durationPerImage T images.length := by
  obtain ⟨ci, cs, cd⟩ := c
  unfold createImageClips
  simp only [List.mem_filterMap]
  constructor
  · rintro ⟨⟨i, s⟩, hmem, hf⟩
    cases s
    · simp only [Option.some.injEq, Clip.mk.injEq] at hf
      obtain ⟨rfl, rfl, rfl⟩ := hf
      exact ⟨mem_enum_iff.mp hmem, rfl, rfl⟩
    · exact absurd hf (by simp)
  · rintro ⟨hget, rfl, rfl⟩
    exact ⟨(ci, .ok), mem_enum_iff.mpr hget, rfl⟩

/-- With at least two clips, `_compose_images_with_transitions` composites the
clip list unchanged. -/
theorem composeWithTransitions_of_two_le {clips : List BgClip} {T : ℚ}
    (h : 2 ≤ clips.length) : composeWithTransitions clips T = clips := by
  match clips with
  | [] => simp at h
  | [c] => simp at h
  | a :: c :: cs => rfl

/-- A list with two distinct members has length at least two. -/
theorem two_le_length_of_mem_ne {α : Type*} {l : List α} {a b : α}
    (ha : a ∈ l) (hb : b ∈ l) (hne : a ≠ b) : 2 ≤ l.length := by
  match l with
  | [] => simp at ha
  | [x] =>
    simp at ha hb
    exact absurd (ha.trans hb.symm) hne
  | x :: y :: rest =>
    simp only [List.length_cons]
    omega

/-- Equal-width slot windows are disjoint: a time inside slot `j` and inside
slot `idx` forces `idx = j`. -/
theorem slot_window_eq {n j idx : ℕ} {T t : ℚ} (hT : 0 < T) (hn : 0 < n)
    (hj1 : (j : ℚ) * (T / n) ≤ t) (hj2 : t < ((j : ℚ) + 1) * (T / n))
    (hi1 : (idx : ℚ) * (T / n) ≤ t) (hi2 : t < ((idx : ℚ) + 1) * (T / n)) :
    idx = j := by
  have hnQ : (0 : ℚ) < n := by exact_mod_cast hn
  have hper : 0 < T / (n : ℚ) := div_pos hT hnQ
  have h1 : (idx : ℚ) < (j : ℚ) + 1 :=
    (mul_lt_mul_right hper).mp (lt_of_le_of_lt hi1 hj2)
  have h2 : (j : ℚ) < (idx : ℚ) + 1 :=
    (mul_lt_mul_right hper).mp (lt_of_le_of_lt hj1 hi2)
  have h1n : idx < j + 1 := by exact_mod_cast h1
  have h2n : j < idx + 1 := by exact_mod_cast h2
  omega

/-- `find?` returns the unique element satisfying the predicate. -/
theorem find?_eq_some_of_unique {α : Type*} {p : α → Bool} {l : List α} {a : α}
    (hmem : a ∈ l) (hpa : p a = true)
    (huniq : ∀ x ∈ l, p x = true → x = a) :
    l.find? p = some a := by
  cases hfind : l.find? p with
  | none =>
    rw [List.find?_eq_none] at hfind
    exact absurd hpa (by simpa using hfind a hmem)
  | some x =>
    rw [huniq x (List.mem_of_find?_eq_some hfind) (List.find?_some hfind)]

/-- `foldr max 0` of a list of values bounded by some `T ≥ 0` is at most `T`. -/
theorem foldr_max_le {l : List ℚ} {T : ℚ} (hT : 0 ≤ T) (h : ∀ x ∈ l, x ≤ T) :
    l.foldr max 0 ≤ T := by
  induction l with
  | nil => simpa using hT
  | cons a tl ih =>
    simp only [List.foldr_cons]
    exact max_le (h a (List.mem_cons_self a tl))
      (ih fun x hx => h x (List.mem_cons_of_mem a hx))

/-- C4 amended: when exactly one image among three or more fails to process,
the composition still proceeds: the failure is caught per image, its clip is
omitted (logged and skipped), every other image's slot shows its own image
unchanged, and the final composite still spans the full avatar duration — but
the failed image's slot shows no background clip at all (the composite's
default), not the solid-color fallback frame. (With only two images the lone
surviving clip is instead stretched from its original start to the full
duration by the single-clip branch.) -/
theorem C4_amended_skip (images : List ImgSpec) (T t : ℚ) (b : ℕ)
    (hT : 0 < T) (hn : 3 ≤ images.length)
    (hb : images.get? b = some .bad)
    (hok : ∀ j, j < images.length → j ≠ b → images.get? j = some .ok) :
    (∀ j, j < images.length → j ≠ b →
        (j : ℚ) * durationPerImage T images.length ≤ t →
        t < ((j : ℚ) + 1) * durationPerImage T images.length →
        backgroundAt images T t = some (BgFrame.image j))
  ∧ ((b : ℚ) * durationPerImage T images.length ≤ t →
        t < ((b : ℚ) + 1) * durationPerImage T images.length →
        backgroundAt images T t = none)
  ∧ finalDuration images T = T := by
  have hn0 : 0 < images.length := by omega
  have hnQ : (0 : ℚ) < images.length := by exact_mod_cast hn0
  have hperpos : 0 < durationPerImage T images.length := div_pos hT hnQ
  have hisEmpty : images.isEmpty = false := by
    rw [List.isEmpty_eq_false]
    intro h
    rw [h] at hn
    simp at hn
  have hsel : selectImageClips images T = (createImageClips images T).map
      (fun c => BgClip.mk (.image c.imageIdx) c.start c.duration) := by
    simp [selectImageClips, hisEmpty]
  have hbg_char : ∀ bg ∈ selectImageClips images T, ∃ idx, idx < images.length ∧ idx ≠ b
      ∧ bg = BgClip.mk (.image idx) (idx * durationPerImage T images.length)
          (durationPerImage T images.length) := by
    intro bg hbg
    rw [hsel, List.mem_map] at hbg
    obtain ⟨c, hc, rfl⟩ := hbg
    rw [mem_createImageClips] at hc
    obtain ⟨hget, hs, hd⟩ := hc
    have hlt : c.imageIdx < images.length := by
      obtain ⟨hlt, _⟩ := List.get?_eq_some.mp hget
      exact hlt
    have hne : c.imageIdx ≠ b := by
      intro h
      rw [h, hb] at hget
      exact ImgSpec.noConfusion (Option.some.inj hget)
    exact ⟨c.imageIdx, hlt, hne, by simp [hs, hd]⟩
  have hmem_bg : ∀ j, j < images.length → j ≠ b →
      BgClip.mk (.image j) (j * durationPerImage T images.length)
        (durationPerImage T images.length) ∈ selectImageClips images T := by
    intro j hj hjb
    rw [hsel, List.mem_map]
    refine ⟨⟨j, j * durationPerImage T images.length, durationPerImage T images.length⟩,
      ?_, rfl⟩
    rw [mem_createImageClips]
    exact ⟨hok j hj hjb, rfl, rfl⟩
  have h2 : 2 ≤ (selectImageClips images T).length := by
    have hj1 : (if b = 0 then 1 else 0) < images.length := by split <;> omega
    have hj1b : (if b = 0 then 1 else 0) ≠ b := by split <;> omega
    have hj2 : (if b = 2 then 1 else 2) < images.length := by split <;> omega
    have hj2b : (if b = 2 then 1 else 2) ≠ b := by split <;> omega
    have hj12 : (if b = 0 then 1 else 0) ≠ (if b = 2 then 1 else 2) := by
      split <;> split <;> omega
    refine two_le_length_of_mem_ne (hmem_bg _ hj1 hj1b) (hmem_bg _ hj2 hj2b) ?_
    intro hEq
    have hcont := congrArg BgClip.content hEq
    simp only [BgFrame.image.injEq] at hcont
    exact hj12 hcont
  have hcompose : composeWithTransitions (selectImageClips images T) T
      = selectImageClips images T := composeWithTransitions_of_two_le h2
  refine ⟨?_, ?_, ?_⟩
  · intro j hj hjb hm1 hm2
    unfold backgroundAt renderAt
    rw [hcompose]
    have hact : clipActive (BgClip.mk (.image j)
        (j * durationPerImage T images.length) (durationPerImage T images.length)) t
        = true := by
      simp only [clipActive, Bool.and_eq_true, decide_eq_true_eq]
      refine ⟨hm1, ?_⟩
      calc t < ((j : ℚ) + 1) * durationPerImage T images.length := hm2
        _ = (j : ℚ) * durationPerImage T images.length
            + durationPerImage T images.length := by ring
    have huniq : ∀ bg ∈ (selectImageClips images T).reverse, clipActive bg t = true →
        bg = BgClip.mk (.image j) (j * durationPerImage T images.length)
          (durationPerImage T images.length) := by
      intro bg hbg hbact
      obtain ⟨idx, hidx, hidxb, rfl⟩ := hbg_char bg (List.mem_reverse.mp hbg)
      simp only [clipActive, Bool.and_eq_true, decide_eq_true_eq] at hbact
      obtain ⟨ha1, ha2⟩ := hbact
      have ha2a : t < ((idx : ℚ) + 1) * durationPerImage T images.length := by
        calc t < (idx : ℚ) * durationPerImage T images.length
              + durationPerImage T images.length := ha2
          _ = ((idx : ℚ) + 1) * durationPerImage T images.length := by ring
      have hidxj : idx = j := slot_window_eq hT hn0 hm1 hm2 ha1 ha2a
      rw [hidxj]
    rw [find?_eq_some_of_unique (List.mem_reverse.mpr (hmem_bg j hj hjb)) hact huniq]
    rfl
  · intro hm1 hm2
    unfold backgroundAt renderAt
    rw [hcompose]
    have hnone : (selectImageClips images T).reverse.find? (clipActive · t) = none := by
      rw [List.find?_eq_none]
      intro bg hbg hbact
      obtain ⟨idx, hidx, hidxb, rfl⟩ := hbg_char bg (List.mem_reverse.mp hbg)
      simp only [clipActive, Bool.and_eq_true, decide_eq_true_eq] at hbact
      obtain ⟨ha1, ha2⟩ := hbact
      have ha2a : t < ((idx : ℚ) + 1) * durationPerImage T images.length := by
        calc t < (idx : ℚ) * durationPerImage T images.length
              + durationPerImage T images.length := ha2
          _ = ((idx : ℚ) + 1) * durationPerImage T images.length := by ring
      exact hidxb (slot_window_eq hT hn0 hm1 hm2 ha1 ha2a)
    rw [hnone]
    rfl
  · unfold finalDuration
    rw [hcompose]
    have hle : compositeDuration (selectImageClips images T) ≤ T := by
      unfold compositeDuration
      apply foldr_max_le (le_of_lt hT)
      intro x hx
      rw [List.mem_map] at hx
      obtain ⟨bg, hbg, rfl⟩ := hx
      obtain ⟨idx, hidx, hidxb, rfl⟩ := hbg_char bg hbg
      unfold clipEnd
      have hidx1 : ((idx : ℚ) + 1) ≤ (images.length : ℚ) := by
        exact_mod_cast Nat.succ_le_of_lt hidx
      calc (idx : ℚ) * durationPerImage T images.length
            + durationPerImage T images.length
          = ((idx : ℚ) + 1) * durationPerImage T images.length := by ring
        _ ≤ (images.length : ℚ) * durationPerImage T images.length :=
            mul_le_mul_of_nonneg_right hidx1 (le_of_lt hperpos)
        _ = T := by
            unfold durationPerImage
            field_simp
    exact max_eq_right hle

/-- C4 amended witness: three images with the middle one failing; at time 2
the first image's own slot is on screen. -/
theorem C4_amended_skip_witness :
    ((0 : ℚ) < 12 ∧ 3 ≤ ([ImgSpec.ok, ImgSpec.bad, ImgSpec.ok] : List ImgSpec).length
      ∧ ([ImgSpec.ok, ImgSpec.bad, ImgSpec.ok] : List ImgSpec).get? 1 = some .bad)
  ∧ backgroundAt [ImgSpec.ok, ImgSpec.bad, ImgSpec.ok] 12 2 = some (BgFrame.image 0) := by
  refine ⟨⟨by norm_num, by decide, by decide⟩, ?_⟩
  have h := (C4_amended_skip [ImgSpec.ok, ImgSpec.bad, ImgSpec.ok] 12 2 1 (by norm_num)
    (by decide) (by decide) ?hok).1 0 (by decide) (by decide) ?m1 ?m2
  case hok =>
    intro j hj hjb
    have hj3 : j < 3 := by simpa using hj
    interval_cases j
    · rfl
    · exact absurd rfl hjb
    · rfl
  case m1 => norm_num [durationPerImage]
  case m2 => norm_num [durationPerImage]
  exact h

/-- C5: when the avatar clip cannot be opened, `_create_with_moviepy` raises at
`VideoFileClip`, the exception handler returns `None`, and no output is
written at the requested path. -/
theorem C5_avatar_unreadable (env : MoviepyEnv) (images : List ImgSpec) (outputPath : String)
    (h : env.avatarOpens = false) :
    (createWithMoviepy env images outputPath).1 = none
  ∧ Event.writeOutput ∉ (createWithMoviepy env images outputPath).2 := by
  simp [createWithMoviepy, h]

/-- C5 witness: an environment whose avatar open fails, with one image. -/
theorem C5_avatar_unreadable_witness :
    (MoviepyEnv.mk false false false).avatarOpens = false
  ∧ (createWithMoviepy ⟨false, false, false⟩ [.ok] "output.mp4").1 = none := by
  refine ⟨rfl, ?_⟩
  exact (C5_avatar_unreadable ⟨false, false, false⟩ [.ok] "output.mp4" rfl).1

/-- C6 counterexample: when `write_videofile` raises, the avatar decoder was
opened but `avatar_clip.close()` is never reached — the handle is not released
on this exit path, refuting release on every exit path. -/
theorem C6_counterexample :
    Event.openAvatar ∈ (createWithMoviepy ⟨true, false, false⟩ [.ok] "output.mp4").2
  ∧ Event.closeAvatar ∉ (createWithMoviepy ⟨true, false, false⟩ [.ok] "output.mp4").2 := by
  constructor
  · simp [createWithMoviepy, imageOpenEvents]
  · simp [createWithMoviepy, imageOpenEvents, List.enum]

/-- Events produced by `imageOpenEvents` are only image opens. -/
theorem mem_imageOpenEvents {e : Event} {images : List ImgSpec}
    (h : e ∈ imageOpenEvents images) : ∃ idx, e = Event.openImage idx := by
  simp only [imageOpenEvents, List.mem_filterMap] at h
  obtain ⟨p, _, hp⟩ := h
  cases hmatch : p.2 <;> rw [hmatch] at hp
  · exact ⟨p.1, (Option.some.injEq _ _ ▸ hp).symm⟩
  · exact absurd hp (by simp)

/-- C6 amended: `close()` runs only on the success path and only for the
avatar clip and the final composite: `closeAvatar` appears in the trace
exactly when the avatar opened and the write succeeded, and no image or audio
handle is ever closed, on any path. -/
theorem C6_amended_close_only_on_success (env : MoviepyEnv) (images : List ImgSpec)
    (outputPath : String) :
    (Event.closeAvatar ∈ (createWithMoviepy env images outputPath).2
      ↔ env.avatarOpens = true ∧ env.writeSucceeds = true)
  ∧ (∀ idx, Event.closeImage idx ∉ (createWithMoviepy env images outputPath).2)
  ∧ Event.closeAudio ∉ (createWithMoviepy env images outputPath).2 := by
  have himg : ∀ idx, Event.closeImage idx ∉ imageOpenEvents images := by
    intro idx hmem
    obtain ⟨j, hj⟩ := mem_imageOpenEvents hmem
    exact Event.noConfusion hj
  have haud : Event.closeAudio ∉ imageOpenEvents images := by
    intro hmem
    obtain ⟨j, hj⟩ := mem_imageOpenEvents hmem
    exact Event.noConfusion hj
  have havt : Event.closeAvatar ∉ imageOpenEvents images := by
    intro hmem
    obtain ⟨j, hj⟩ := mem_imageOpenEvents hmem
    exact Event.noConfusion hj
  cases env with
  | mk avatarOpens audioExists writeSucceeds =>
    cases avatarOpens <;> cases audioExists <;> cases writeSucceeds <;>
      simp_all [createWithMoviepy]

/-- C8: with an empty image list, `_create_with_moviepy` substitutes a single
`ColorClip` of RGB `(240, 240, 245)` spanning the avatar clip's full duration;
the timeline over zero images is empty, and every time in `[0, totalDuration)`
shows the solid fallback. -/
theorem C8_empty_image_list (totalDuration t : ℚ) :
    buildTimeline totalDuration 0 = []
  ∧ selectImageClips [] totalDuration
      = [⟨BgFrame.solid (240, 240, 245), 0, totalDuration⟩]
  ∧ (0 ≤ t → t < totalDuration →
      backgroundAt [] totalDuration t = some (BgFrame.solid (240, 240, 245))) := by
  refine ⟨rfl, rfl, ?_⟩
  intro h0 hT
  have h0T : t < 0 + totalDuration := by linarith
  simp [backgroundAt, renderAt, composeWithTransitions, selectImageClips, clipActive,
    List.find?, h0, hT, h0T]

/-- C8 witness: at time 3 of a 10-second avatar with no images, the solid
`(240, 240, 245)` background is shown. -/
theorem C8_empty_image_list_witness :
    ((0 : ℚ) ≤ 3 ∧ (3 : ℚ) < 10)
  ∧ backgroundAt [] 10 3 = some (BgFrame.solid (240, 240, 245)) := by
  refine ⟨⟨by norm_num, by norm_num⟩, ?_⟩
  exact (C8_empty_image_list 10 3).2.2 (by norm_num) (by norm_num)

/-- The moviepy backend's result is the given path or `None`. -/
theorem createWithMoviepy_fst (env : MoviepyEnv) (images : List ImgSpec) (p : String) :
    (createWithMoviepy env images p).1 = some p ∨ (createWithMoviepy env images p).1 = none := by
  unfold createWithMoviepy
  cases env.avatarOpens <;> cases env.writeSucceeds <;> simp

/-- The OpenCV backend's result is the given path or `None`. -/
theorem createWithOpencv_fst (env : OpencvEnv) (images : List ImgSpec) (p : String) :
    (createWithOpencv env images p).1 = some p ∨ (createWithOpencv env images p).1 = none := by
  simp only [createWithOpencv]
  split
  · right; rfl
  · left; rfl

/-- C9: `create_pip_video` returns either exactly the output path it was given
or `None`, whatever the backend availability and environment. -/
theorem C9_result_is_path_or_none (avail : Backends) (envM : MoviepyEnv) (envC : OpencvEnv)
    (images : List ImgSpec) (outputPath : String) :
    create_pip_video avail envM envC images outputPath = some outputPath
  ∨ create_pip_video avail envM envC images outputPath = none := by
  unfold create_pip_video
  split
  · exact createWithMoviepy_fst envM images outputPath
  · split
    · exact createWithOpencv_fst envC images outputPath
    · right; rfl

/-- C10: in the OpenCV path, when the avatar yields at least one readable
frame but its reported frame count is below the number of prepared images,
`frames_per_image` is 0, the background-index division raises
`ZeroDivisionError` on the first frame, the handler returns `None`, and no
frame is written to the encoder. -/
theorem C10_zero_frame_budget (env : OpencvEnv) (images : List ImgSpec) (outputPath : String)
    (hr : 1 ≤ env.readableFrames)
    (hp : 1 ≤ preparedCount images)
    (hf : env.totalFrames < preparedCount images) :
    framesPerImage env.totalFrames (preparedCount images) = 0
  ∧ createWithOpencv env images outputPath = (none, 0) := by
  have hmax : max (preparedCount images) 1 = preparedCount images := by omega
  have hfpi : framesPerImage env.totalFrames (preparedCount images) = 0 := by
    unfold framesPerImage
    rw [hmax]
    exact Nat.div_eq_of_lt hf
  refine ⟨hfpi, ?_⟩
  obtain ⟨r, hrw⟩ : ∃ r, env.readableFrames = r + 1 := ⟨env.readableFrames - 1, by omega⟩
  simp only [createWithOpencv]
  rw [hfpi, hrw]
  have hloop : opencvLoop (preparedCount images) 0 (r + 1) 0 = (true, 0) := by
    unfold opencvLoop
    simp
    omega
  rw [hloop]
  simp

/-- C10 witness: a one-frame avatar video with two prepared images. -/
theorem C10_zero_frame_budget_witness :
    (1 ≤ (OpencvEnv.mk 1 1).readableFrames
      ∧ 1 ≤ preparedCount [.ok, .ok]
      ∧ (OpencvEnv.mk 1 1).totalFrames < preparedCount [.ok, .ok])
  ∧ createWithOpencv ⟨1, 1⟩ [.ok, .ok] "output.mp4" = (none, 0) := by
  refine ⟨⟨by decide, by decide, by decide⟩, ?_⟩
  exact (C10_zero_frame_budget ⟨1, 1⟩ [.ok, .ok] "output.mp4" (by decide) (by decide)
    (by decide)).2

end VideoComposer
